import Mathlib

/-!
Verification development for the DeFi Intelligence Terminal
(`src/crypto_dashboard.py`).

The Python source is shallowly embedded: dataframe rows become Lean
structures with `Option` fields (a `none` field models a key that is
absent from the row dict, or a NaN cell), float arithmetic is modelled
exactly over `ℚ`, and code paths that raise a Python exception are
modelled with `Except` / an explicit outcome constructor.  Python
`round(x, 2)` is modelled as exact round-half-to-even at two decimals.
-/

/-- Round-half-to-even on rationals, modelling the tie-breaking rule of
Python round. -/
def roundHalfEven (q : ℚ) : ℤ :=
  if q - ⌊q⌋ < 1/2 then ⌊q⌋
  else if 1/2 < q - ⌊q⌋ then ⌊q⌋ + 1
  else if ⌊q⌋ % 2 = 0 then ⌊q⌋ else ⌊q⌋ + 1

/-- Model of Python round(x, 2): round to two decimal places,
ties to even. -/
def round2 (q : ℚ) : ℚ := (roundHalfEven (q * 100) : ℚ) / 100

/-- A fee row as seen by compute_trend_score: the two numeric fields it
reads, each possibly missing (absent key or NaN cell; the code defaults
an absent key to 0 via row.get). -/
structure FeeRow where
  change_7d : Option ℚ
  total24h : Option ℚ
deriving Repr, DecidableEq

/-- Embedding of compute_trend_score (src/crypto_dashboard.py lines
108-112): score = min(change_7d, 50)*0.6 + min(total24h/1e7, 20),
then round(min(score, 100), 2). -/
def compute_trend_score (row : FeeRow) : ℚ :=
  let score : ℚ := 0 + min (row.change_7d.getD 0) 50 * (6/10)
    + min (row.total24h.getD 0 / 10000000) 20
  round2 (min score 100)

/-- A yield row as seen by whale_flow_signal: the TVL (USD) and APY (%)
fields it reads via row.get with default 0. -/
structure WhaleRow where
  tvl : Option ℚ
  apy : Option ℚ
deriving Repr, DecidableEq

/-- Embedding of whale_flow_signal (src/crypto_dashboard.py lines
115-125): a first-match chain of threshold tests over TVL and APY. -/
def whale_flow_signal (row : WhaleRow) : String :=
  let tvl := row.tvl.getD 0
  let apy := row.apy.getD 0
  if 500000000 < tvl ∧ apy < 8 then "🐳 Accumulation"
  else if 500000000 < tvl ∧ 20 < apy then "🐳 Distribution"
  else if tvl < 50000000 ∧ 25 < apy then "🐟 Retail Farming"
  else "Neutral"

/-- The process environment as read by send_email: the four SMTP
variables, each possibly unset. -/
structure Env where
  smtpServer : Option String
  smtpUser : Option String
  smtpPassword : Option String
  smtpPort : Option String
deriving Repr, DecidableEq

/-- Value of a decimal digit character, via its code point. -/
def pyDigit? (c : Char) : Option Nat :=
  if c.toNat < 48 then none
  else if 57 < c.toNat then none
  else some (c.toNat - 48)

/-- Accumulate a decimal number over a character list, failing on the
first non-digit. -/
def pyDigits? : List Char → Nat → Option Nat
  | [], acc => some acc
  | c :: cs, acc =>
    match pyDigit? c with
    | none => none
    | some d => pyDigits? cs (acc * 10 + d)

/-- Model of Python int() on a string: an optional sign followed by one
or more decimal digits parses, anything else raises ValueError
(modelled as none).  CPython also tolerates surrounding whitespace and
underscores between digits; no claim depends on those inputs. -/
def pyInt? (s : String) : Option Int :=
  match s.toList with
  | [] => none
  | '-' :: cs =>
    match cs with
    | [] => none
    | _ => (pyDigits? cs 0).map (fun n => -(n : Int))
  | '+' :: cs =>
    match cs with
    | [] => none
    | _ => (pyDigits? cs 0).map (fun n => (n : Int))
  | cs => (pyDigits? cs 0).map (fun n => (n : Int))

/-- Python truthiness of an os.getenv result: None and the empty string
are falsy. -/
def pyTruthy (o : Option String) : Bool :=
  match o with
  | none => false
  | some s => !s.isEmpty

/-- The observable outcome of send_email up to the point where it would
touch the network: a ValueError raised by int() on the port, the early
False return for missing configuration, or a connection attempt with
the parsed parameters (the transport itself is external). -/
inductive SendOutcome where
  | raisedValueError
  | notConfigured
  | attemptSend (server : String) (port : Int) (user pwd subject body : String)
deriving Repr, DecidableEq

/-- Embedding of send_email (src/crypto_dashboard.py lines 163-182).
The port is parsed with int() before the missing-configuration check,
exactly as in the source; the check itself is
`if not all([server, user, pwd])`. -/
def send_email (env : Env) (subject body : String) : SendOutcome :=
  match pyInt? (env.smtpPort.getD "587") with
  | none => SendOutcome.raisedValueError
  | some port =>
    if pyTruthy env.smtpServer && pyTruthy env.smtpUser && pyTruthy env.smtpPassword then
      SendOutcome.attemptSend (env.smtpServer.getD "") port
        (env.smtpUser.getD "") (env.smtpPassword.getD "") subject body
    else
      SendOutcome.notConfigured

-- Bounds for roundHalfEven and round2, used for the trend-score range.

theorem roundHalfEven_le_intCast {q : ℚ} {n : ℤ} (h : q ≤ (n : ℚ)) :
    roundHalfEven q ≤ n := by
  have hf : ⌊q⌋ ≤ n := by
    have h2 := Int.floor_le_floor h
    rwa [Int.floor_intCast] at h2
  have hup : ¬ (q - (⌊q⌋ : ℚ) < 1/2) → ⌊q⌋ + 1 ≤ n := by
    intro h1
    push_neg at h1
    have hq : (⌊q⌋ : ℚ) + 1/2 ≤ (n : ℚ) := by linarith
    have hlt : ⌊q⌋ < n := by
      by_contra hc
      push_neg at hc
      have hcq : (n : ℚ) ≤ (⌊q⌋ : ℚ) := by exact_mod_cast hc
      linarith
    omega
  unfold roundHalfEven
  split_ifs with h1 h2 h3
  · exact hf
  · exact hup h1
  · exact hf
  · exact hup h1

theorem intCast_le_roundHalfEven {q : ℚ} {n : ℤ} (h : (n : ℚ) ≤ q) :
    n ≤ roundHalfEven q := by
  have hf : n ≤ ⌊q⌋ := Int.le_floor.mpr h
  unfold roundHalfEven
  split_ifs with h1 h2 h3
  · exact hf
  · omega
  · exact hf
  · omega

theorem round2_le_of_le {q : ℚ} {n : ℤ} (h : q ≤ (n : ℚ)) : round2 q ≤ (n : ℚ) := by
  unfold round2
  have h100 : q * 100 ≤ ((n * 100 : ℤ) : ℚ) := by
    push_cast
    linarith
  have := roundHalfEven_le_intCast h100
  have hc : (roundHalfEven (q * 100) : ℚ) ≤ ((n * 100 : ℤ) : ℚ) := by
    exact_mod_cast this
  push_cast at hc
  linarith

theorem le_round2_of_le {q : ℚ} {n : ℤ} (h : (n : ℚ) ≤ q) : (n : ℚ) ≤ round2 q := by
  unfold round2
  have h100 : ((n * 100 : ℤ) : ℚ) ≤ q * 100 := by
    push_cast
    linarith
  have := intCast_le_roundHalfEven h100
  have hc : ((n * 100 : ℤ) : ℚ) ≤ (roundHalfEven (q * 100) : ℚ) := by
    exact_mod_cast this
  push_cast at hc
  linarith

/-- A raw fee-overview protocol entry as decoded from the fees payload:
the four fields the loader requires, each possibly absent from the row
dict (other keys would only add columns that the projection drops). -/
structure RawFeeRow where
  name : Option String
  category : Option String
  total24h : Option ℚ
  change_7d : Option ℚ
deriving Repr, DecidableEq

/-- Presence of the four required columns in the flattened frame: a
pandas column exists when at least one row dict carries the key. -/
def feeColsPresent (rows : List RawFeeRow) : Bool :=
  rows.any (fun r => r.name.isSome) && rows.any (fun r => r.category.isSome)
    && rows.any (fun r => r.total24h.isSome) && rows.any (fun r => r.change_7d.isSome)

/-- Sort key of load_fees: the change_7d cell, with a missing cell (NaN)
below every number, matching na_position=last under descending order. -/
def feeKey (r : RawFeeRow) : WithBot ℚ :=
  match r.change_7d with
  | none => ⊥
  | some q => (q : WithBot ℚ)

/-- Descending comparison on fee rows used by the model of
sort_values(change_7d, ascending=False). -/
def feeDesc (a b : RawFeeRow) : Prop := feeKey b ≤ feeKey a

instance : DecidableRel feeDesc := fun a b =>
  inferInstanceAs (Decidable (feeKey b ≤ feeKey a))

instance : IsTotal RawFeeRow feeDesc :=
  ⟨fun a b => le_total (feeKey b) (feeKey a)⟩

instance : IsTrans RawFeeRow feeDesc :=
  ⟨fun _ _ _ hab hbc => le_trans hbc hab⟩

/-- Embedding of load_fees (src/crypto_dashboard.py lines 53-63).
The input none models an unavailable fetch or a falsy payload; some
rows models a truthy payload whose protocols list flattens to rows (an
absent protocols key defaults to the empty list).  The required-columns
check is frame-wide, so rows missing individual cells survive it.  The
model sorts stably where pandas quicksort leaves tie order unspecified. -/
def load_fees (d : Option (List RawFeeRow)) : List RawFeeRow :=
  match d with
  | none => []
  | some rows =>
    if feeColsPresent rows then List.insertionSort feeDesc rows
    else []

/-- A raw dex-overview protocol entry: the keys load_dexs inspects, plus
a flag recording whether the row dict carries any other key (which
affects only the emptiness of the flattened frame). -/
structure RawDexRow where
  name : Option String
  category : Option String
  dailyUsers : Option ℚ
  users : Option ℚ
  activeUsers : Option ℚ
  otherKeys : Bool
deriving Repr, DecidableEq

/-- Whether a raw dex row dict has at least one key. -/
def dexRowHasKey (r : RawDexRow) : Bool :=
  r.name.isSome || r.category.isSome || r.dailyUsers.isSome || r.users.isSome
    || r.activeUsers.isSome || r.otherKeys

/-- Embedding of safe_column (src/crypto_dashboard.py lines 43-47): the
first candidate column present in the frame, if any.  Candidates are
given with their presence bit. -/
def safe_column (cols : List (String × Bool)) : Option String :=
  match cols with
  | [] => none
  | (c, present) :: rest => if present then some c else safe_column rest

/-- An output row of load_dexs: name and category as projected (a cell
can be NaN when another row supplied the column), and the optional
users column. -/
structure DexRow where
  name : Option String
  category : Option String
  users : Option ℚ
deriving Repr, DecidableEq

/-- Value of the selected user column in a raw dex row. -/
def dexUserValue (col : String) (r : RawDexRow) : Option ℚ :=
  if col = "dailyUsers" then r.dailyUsers
  else if col = "users" then r.users
  else if col = "activeUsers" then r.activeUsers
  else none

/-- Embedding of load_dexs (src/crypto_dashboard.py lines 66-81).  After
the emptiness check the code projects df[[name, category]] with no
column-presence guard, so a frame lacking either column raises KeyError,
modelled as Except.error. -/
def load_dexs (d : Option (List RawDexRow)) : Except String (List DexRow) :=
  match d with
  | none => Except.ok []
  | some rows =>
    if rows.isEmpty || rows.all (fun r => !dexRowHasKey r) then Except.ok []
    else
      let userCol := safe_column
        [("dailyUsers", rows.any (fun r => r.dailyUsers.isSome)),
         ("users", rows.any (fun r => r.users.isSome)),
         ("activeUsers", rows.any (fun r => r.activeUsers.isSome))]
      if rows.any (fun r => r.name.isSome) && rows.any (fun r => r.category.isSome) then
        Except.ok (rows.map (fun r =>
          { name := r.name, category := r.category,
            users := match userCol with
                     | some c => dexUserValue c r
                     | none => none }))
      else Except.error "KeyError"

/-- A raw yield-pool entry: the keys load_yields inspects, plus a flag
for any other key in the row dict. -/
structure RawYieldRow where
  project : Option String
  chain : Option String
  category : Option String
  apy : Option ℚ
  tvlUsd : Option ℚ
  otherKeys : Bool
deriving Repr, DecidableEq

/-- Whether a raw yield row dict has at least one key. -/
def yieldRowHasKey (r : RawYieldRow) : Bool :=
  r.project.isSome || r.chain.isSome || r.category.isSome || r.apy.isSome
    || r.tvlUsd.isSome || r.otherKeys

/-- An output row of load_yields after projection. -/
structure YieldRow where
  project : Option String
  chain : Option String
  category : Option String
  apy : Option ℚ
  tvlUsd : Option ℚ
deriving Repr, DecidableEq

/-- Embedding of load_yields (src/crypto_dashboard.py lines 84-102).
The apy and tvlUsd columns are checked frame-wide; the category column
is defaulted to the constant Yield only when absent frame-wide; the
filter keeps rows whose apy cell is a number greater than 8 (a NaN
comparison is False); the final projection raises KeyError when the
project or chain column is absent, modelled as Except.error. -/
def load_yields (d : Option (List RawYieldRow)) : Except String (List YieldRow) :=
  match d with
  | none => Except.ok []
  | some rows =>
    if rows.isEmpty || rows.all (fun r => !yieldRowHasKey r) then Except.ok []
    else if !(rows.any (fun r => r.apy.isSome)) then Except.ok []
    else if !(rows.any (fun r => r.tvlUsd.isSome)) then Except.ok []
    else
      let catPresent := rows.any (fun r => r.category.isSome)
      let kept := rows.filter (fun r =>
        match r.apy with
        | some a => decide (8 < a)
        | none => false)
      if rows.any (fun r => r.project.isSome) && rows.any (fun r => r.chain.isSome) then
        Except.ok (kept.map (fun r =>
          { project := r.project, chain := r.chain,
            category := if catPresent then r.category else some "Yield",
            apy := r.apy, tvlUsd := r.tvlUsd }))
      else Except.error "KeyError"

/-- The view detect_narratives takes of one input dataframe: whether the
frame is empty, whether it has a category column, and the category
column cells (none models a NaN entry, dropped by dropna). -/
structure DSet where
  isEmpty : Bool
  hasCat : Bool
  cats : List (Option String)
deriving Repr, DecidableEq

/-- First-occurrence deduplication, modelling pandas Series.unique. -/
def uniqueFirst (l : List String) : List String :=
  l.foldl (fun acc a => if a ∈ acc then acc else acc ++ [a]) []

/-- The distinct non-null categories detect_narratives draws from one
dataset: none when the frame is skipped (empty or no category column),
else dropna().unique() of the category column. -/
def observedCats (df : DSet) : List String :=
  if df.isEmpty || !df.hasCat then []
  else uniqueFirst (df.cats.filterMap id)

/-- Model of set.add on a signal set kept as an insertion-ordered
duplicate-free list. -/
def addNew (l : List String) (sig : String) : List String :=
  if sig ∈ l then l else l ++ [sig]

/-- Model of narratives.setdefault(cat, set()).add(signal) on an
insertion-ordered dict from category to its accumulated signal set. -/
def addSignal : List (String × List String) → String → String → List (String × List String)
  | [], cat, sig => [(cat, [sig])]
  | (c, sigs) :: rest, cat, sig =>
    if c = cat then (c, addNew sigs sig) :: rest
    else (c, sigs) :: addSignal rest cat sig

/-- Model of the inner loop of detect_narratives: record one signal
source for every category it mentions. -/
def addCats (m : List (String × List String)) (cats : List String) (sig : String) :
    List (String × List String) :=
  cats.foldl (fun m c => addSignal m c sig) m

/-- Lookup in the category-to-signals dict. -/
def lookupSig : List (String × List String) → String → Option (List String)
  | [], _ => none
  | (c, sigs) :: rest, cat => if c = cat then some sigs else lookupSig rest cat

/-- The key list of the category-to-signals dict, in insertion order. -/
def keysOf (m : List (String × List String)) : List String := m.map Prod.fst

/-- Status label of detect_narratives as a function of strength. -/
def narrativeStatus (strength : Nat) : String :=
  if 3 ≤ strength then "🔥 Accelerating"
  else if strength = 2 then "🟢 Emerging"
  else "🧊 Mature"

/-- One output row of detect_narratives. -/
structure NarrativeRow where
  narrative : String
  signalsActive : String
  strength : Nat
  status : String
deriving Repr, DecidableEq

/-- Emission of one dict entry as an output row: signals joined sorted
and comma-separated, strength the set size, status from strength. -/
def mkNarrativeRow (cat : String) (sigs : List String) : NarrativeRow :=
  { narrative := cat
    signalsActive := String.intercalate ", " (List.insertionSort (fun a b => a ≤ b) sigs)
    strength := sigs.length
    status := narrativeStatus sigs.length }

/-- Descending-strength comparison used by the model of
sort_values(Strength, ascending=False). -/
def strengthDesc (a b : NarrativeRow) : Prop := b.strength ≤ a.strength

instance : DecidableRel strengthDesc := fun a b =>
  inferInstanceAs (Decidable (b.strength ≤ a.strength))

instance : IsTotal NarrativeRow strengthDesc :=
  ⟨fun a b => Nat.le_total b.strength a.strength⟩

instance : IsTrans NarrativeRow strengthDesc :=
  ⟨fun _ _ _ hab hbc => le_trans hbc hab⟩

/-- The category-to-signals dict built by the scanning phase of
detect_narratives over the three datasets in source order. -/
def narrativesDict (fees dex yld : DSet) : List (String × List String) :=
  addCats (addCats (addCats [] (observedCats fees) "fees") (observedCats dex) "users")
    (observedCats yld) "liquidity"

/-- Embedding of detect_narratives (src/crypto_dashboard.py lines
128-157).  When no category is observed the row list is empty and
pd.DataFrame([]).sort_values(Strength) raises KeyError, modelled as
Except.error; otherwise the rows are sorted by descending strength
(tie order is unspecified in the source, the model sorts stably). -/
def detect_narratives (fees dex yld : DSet) : Except String (List NarrativeRow) :=
  let rows := (narrativesDict fees dex yld).map (fun p => mkNarrativeRow p.1 p.2)
  if rows.isEmpty then Except.error "KeyError"
  else Except.ok (List.insertionSort strengthDesc rows)

/-- The signal sources among fees, users, liquidity whose dataset
mentions a category, in dataset order; written from the words of the
spec (narrative strength invariant) for comparison with the code. -/
def specSignals (fees dex yld : DSet) (cat : String) : List String :=
  (if cat ∈ observedCats fees then ["fees"] else [])
    ++ (if cat ∈ observedCats dex then ["users"] else [])
    ++ (if cat ∈ observedCats yld then ["liquidity"] else [])

/-- The number of distinct signal sources mentioning a category;
written from the words of the spec for comparison with the code. -/
def specStrength (fees dex yld : DSet) (cat : String) : Nat :=
  (if cat ∈ observedCats fees then 1 else 0)
    + (if cat ∈ observedCats dex then 1 else 0)
    + (if cat ∈ observedCats yld then 1 else 0)

/-- The spec formula for trend_score exactly as the claim words it:
the weighted sum clamped to the interval [0, 100] (below at 0 and above
at 100), then rounded to two decimals; for comparison with the code. -/
def trend_score_specFormula (row : FeeRow) : ℚ :=
  round2 (max 0 (min (min (row.change_7d.getD 0) 50 * (6/10)
    + min (row.total24h.getD 0 / 10000000) 20) 100))

/-- C1: the narrative aggregator is claimed never to fail and to return
the empty sequence when no categories are observed; on three empty
datasets the code instead raises KeyError from
pd.DataFrame([]).sort_values(Strength), since the empty frame has no
Strength column. -/
theorem C1_detect_narratives_raises_on_no_categories :
    detect_narratives ⟨true, false, []⟩ ⟨true, false, []⟩ ⟨true, false, []⟩
      = Except.error "KeyError" := by
  rfl

/-- C2: the loaders are claimed schema-safe (empty output, never a
raise, never rows with nulls in required columns).  The code violates
both parts: load_dexs projects df[[name, category]] without a
column-presence check, raising KeyError on a payload whose rows lack
those keys, and load_fees performs only a frame-wide column check, so a
payload mixing one complete row with a name-only row yields an output
row whose required category, total24h and change_7d cells are null. -/
theorem C2_loaders_not_schema_safe :
    load_dexs (some [⟨none, none, some 5, none, none, false⟩]) = Except.error "KeyError"
      ∧ (⟨some "B", none, none, none⟩ : RawFeeRow) ∈
          load_fees (some [⟨some "A", some "D", some 1, some 2⟩,
            ⟨some "B", none, none, none⟩]) := by
  constructor
  · rfl
  · decide

/-- C3 counterexample: trend_score is claimed to lie in [0, 100] for
every row, including negative field values; the code only clamps above
at 100, and a row with change_7d = -1000 scores -600. -/
theorem C3_counterexample :
    compute_trend_score ⟨some (-1000), none⟩ = -600
      ∧ ¬ (0 ≤ compute_trend_score ⟨some (-1000), none⟩) := by
  have hval : compute_trend_score ⟨some (-1000), none⟩ = -600 := by
    norm_num [compute_trend_score, round2, roundHalfEven, min_def]
  refine ⟨hval, ?_⟩
  rw [hval]
  norm_num

/-- C3 amended: trend_score(row) is at most 100 for every row, and lies
in [0, 100] whenever the (defaulted) change_7d and total24h values are
nonnegative; the code clamps only above at 100. -/
theorem C3_trend_score_range_amended (row : FeeRow) :
    compute_trend_score row ≤ 100
      ∧ (0 ≤ row.change_7d.getD 0 → 0 ≤ row.total24h.getD 0 →
          0 ≤ compute_trend_score row) := by
  unfold compute_trend_score
  constructor
  · have h := round2_le_of_le (q := min (0 + min (row.change_7d.getD 0) 50 * (6/10)
      + min (row.total24h.getD 0 / 10000000) 20) 100) (n := 100) (by
        push_cast
        exact min_le_right _ _)
    simpa using h
  · intro hc ht
    have h1 : (0:ℚ) ≤ min (row.change_7d.getD 0) 50 * (6/10) := by
      apply mul_nonneg
      · exact le_min hc (by norm_num)
      · norm_num
    have h2 : (0:ℚ) ≤ min (row.total24h.getD 0 / 10000000) 20 := by
      apply le_min
      · positivity
      · norm_num
    have h3 : (0:ℚ) ≤ min (0 + min (row.change_7d.getD 0) 50 * (6/10)
        + min (row.total24h.getD 0 / 10000000) 20) 100 := by
      apply le_min
      · linarith
      · norm_num
    have h := le_round2_of_le (q := min (0 + min (row.change_7d.getD 0) 50 * (6/10)
      + min (row.total24h.getD 0 / 10000000) 20) 100) (n := 0) (by push_cast; exact h3)
    simpa using h

/-- C3 witness: the bounds evaluated at the spec scenario row. -/
theorem C3_trend_score_range_amended_witness :
    compute_trend_score ⟨some 12, some 50000000⟩ ≤ 100
      ∧ 0 ≤ compute_trend_score ⟨some 12, some 50000000⟩ := by
  have h := C3_trend_score_range_amended ⟨some 12, some 50000000⟩
  exact ⟨h.1, h.2 (by norm_num) (by norm_num)⟩

/-- C5 counterexample: the claimed formula clamps to [0, 100], but the
code has no lower clamp: at change_7d = -1000 the code returns -600
while the claimed formula returns 0. -/
theorem C5_counterexample :
    compute_trend_score ⟨some (-1000), none⟩
      ≠ trend_score_specFormula ⟨some (-1000), none⟩ := by
  have hcode : compute_trend_score ⟨some (-1000), none⟩ = -600 := by
    norm_num [compute_trend_score, round2, roundHalfEven, min_def]
  have hspec : trend_score_specFormula ⟨some (-1000), none⟩ = 0 := by
    norm_num [trend_score_specFormula, round2, roundHalfEven, min_def, max_def]
  rw [hcode, hspec]
  norm_num

/-- C5 amended: trend_score equals the weighted sum clamped above at
100 only (no lower clamp), rounded to two decimals, with missing fields
treated as 0; at the spec scenario row with total24h 5e7 and change_7d
12 the value is 12.2. -/
theorem C5_trend_score_formula_amended :
    (∀ row : FeeRow, compute_trend_score row
        = round2 (min (min (row.change_7d.getD 0) 50 * (6/10)
            + min (row.total24h.getD 0 / 10000000) 20) 100))
      ∧ compute_trend_score ⟨some 12, some 50000000⟩ = 61/5 := by
  constructor
  · intro row
    unfold compute_trend_score
    rw [zero_add]
  · norm_num [compute_trend_score, round2, roundHalfEven, min_def]

/-- Unfolding of whale_flow_signal into its branch chain. -/
theorem whale_flow_signal_ite (row : WhaleRow) :
    whale_flow_signal row =
      (if 500000000 < row.tvl.getD 0 ∧ row.apy.getD 0 < 8 then "🐳 Accumulation"
       else if 500000000 < row.tvl.getD 0 ∧ 20 < row.apy.getD 0 then "🐳 Distribution"
       else if row.tvl.getD 0 < 50000000 ∧ 25 < row.apy.getD 0 then "🐟 Retail Farming"
       else "Neutral") := rfl

/-- C6 counterexample: a missing TVL with a present APY of 30 is claimed
to yield Neutral, but the default TVL of 0 satisfies the third branch
and the code returns Retail Farming. -/
theorem C6_counterexample :
    whale_flow_signal ⟨none, some 30⟩ = "🐟 Retail Farming"
      ∧ whale_flow_signal ⟨none, some 30⟩ ≠ "Neutral" := by
  have h1 : whale_flow_signal ⟨none, some 30⟩ = "🐟 Retail Farming" := rfl
  refine ⟨h1, ?_⟩
  rw [h1]
  decide

/-- C6 amended: whale_flow_signal always returns one of the four
labels, follows the strict first-match priority chain of the source,
treats each missing field as 0, and returns Neutral when both TVL and
APY are missing; a single missing field can still select a branch
through the other field, so the Neutral clause holds for rows with both
fields missing rather than rows with either missing. -/
theorem C6_whale_signal_amended (row : WhaleRow) :
    (whale_flow_signal row = "🐳 Accumulation"
        ∨ whale_flow_signal row = "🐳 Distribution"
        ∨ whale_flow_signal row = "🐟 Retail Farming"
        ∨ whale_flow_signal row = "Neutral")
      ∧ (500000000 < row.tvl.getD 0 → row.apy.getD 0 < 8 →
          whale_flow_signal row = "🐳 Accumulation")
      ∧ (500000000 < row.tvl.getD 0 → 20 < row.apy.getD 0 →
          whale_flow_signal row = "🐳 Distribution")
      ∧ (row.tvl.getD 0 < 50000000 → 25 < row.apy.getD 0 →
          whale_flow_signal row = "🐟 Retail Farming")
      ∧ (¬ (500000000 < row.tvl.getD 0 ∧ row.apy.getD 0 < 8) →
          ¬ (500000000 < row.tvl.getD 0 ∧ 20 < row.apy.getD 0) →
          ¬ (row.tvl.getD 0 < 50000000 ∧ 25 < row.apy.getD 0) →
          whale_flow_signal row = "Neutral")
      ∧ (row.tvl = none → row.apy = none → whale_flow_signal row = "Neutral") := by
  rw [whale_flow_signal_ite]
  split_ifs with g1 g2 g3
  · refine ⟨Or.inl rfl, fun _ _ => rfl, ?_, ?_, ?_, ?_⟩
    · intro _ h2
      exfalso
      linarith [g1.2]
    · intro h1 _
      exfalso
      linarith [g1.1]
    · intro hn _ _
      exact absurd g1 hn
    · intro ht _
      exfalso
      rw [ht] at g1
      have := g1.1
      norm_num at this
  · refine ⟨Or.inr (Or.inl rfl), ?_, fun _ _ => rfl, ?_, ?_, ?_⟩
    · intro h1 h2
      exact absurd ⟨h1, h2⟩ g1
    · intro h1 _
      exfalso
      linarith [g2.1]
    · intro _ hn _
      exact absurd g2 hn
    · intro ht _
      exfalso
      rw [ht] at g2
      have := g2.1
      norm_num at this
  · refine ⟨Or.inr (Or.inr (Or.inl rfl)), ?_, ?_, fun _ _ => rfl, ?_, ?_⟩
    · intro h1 h2
      exact absurd ⟨h1, h2⟩ g1
    · intro h1 h2
      exact absurd ⟨h1, h2⟩ g2
    · intro _ _ hn
      exact absurd g3 hn
    · intro _ ha
      exfalso
      rw [ha] at g3
      have := g3.2
      norm_num at this
  · refine ⟨Or.inr (Or.inr (Or.inr rfl)), ?_, ?_, ?_, fun _ _ _ => rfl, fun _ _ => rfl⟩
    · intro h1 h2
      exact absurd ⟨h1, h2⟩ g1
    · intro h1 h2
      exact absurd ⟨h1, h2⟩ g2
    · intro h1 h2
      exact absurd ⟨h1, h2⟩ g3

/-- C6 witness: the priority chain evaluated at a concrete
large-TVL low-APY row, selecting Accumulation. -/
theorem C6_whale_signal_amended_witness :
    whale_flow_signal ⟨some 600000000, some 5⟩ = "🐳 Accumulation" :=
  (C6_whale_signal_amended ⟨some 600000000, some 5⟩).2.1 (by norm_num) (by norm_num)

/-- C7 counterexample: with all three credentials absent but SMTP_PORT
set to a non-numeric string, send_email is claimed to return false
without raising, yet the code converts the port with int() before the
missing-configuration check and raises ValueError. -/
theorem C7_counterexample :
    send_email ⟨none, none, none, some "587x"⟩ "subject" "body"
        = SendOutcome.raisedValueError
      ∧ send_email ⟨none, none, none, some "587x"⟩ "subject" "body"
        ≠ SendOutcome.notConfigured := by
  constructor
  · rfl
  · decide

/-- C7 amended: whenever any of host, user or password is absent and
the port value (defaulting to 587) parses as an integer, send_email
returns false without raising and without a connection attempt; a
non-integer SMTP_PORT raises even with the credentials absent. -/
theorem C7_send_email_missing_config_amended (env : Env) (subject body : String)
    (habs : env.smtpServer = none ∨ env.smtpUser = none ∨ env.smtpPassword = none)
    (hport : (pyInt? (env.smtpPort.getD "587")).isSome) :
    send_email env subject body = SendOutcome.notConfigured := by
  unfold send_email
  obtain ⟨port, hp⟩ := Option.isSome_iff_exists.mp hport
  rw [hp]
  have hfalse : (pyTruthy env.smtpServer && pyTruthy env.smtpUser
      && pyTruthy env.smtpPassword) = false := by
    rcases habs with h | h | h <;> simp [h, pyTruthy]
  rw [hfalse]
  rfl

/-- C7 witness: the amended statement evaluated with only the user and
password configured and the port left to its default. -/
theorem C7_send_email_missing_config_amended_witness :
    send_email ⟨none, some "u", some "p", none⟩ "subject" "body"
      = SendOutcome.notConfigured :=
  C7_send_email_missing_config_amended ⟨none, some "u", some "p", none⟩ "subject" "body"
    (Or.inl rfl) (by decide)

/-- C9: with SMTP_PORT set to a non-decimal string and host, user and
password all absent, send_email raises from the integer conversion of
the port, performed before the missing-configuration check, instead of
returning false; this holds for every subject and body. -/
theorem C9_send_email_port_valueerror (subject body : String) :
    send_email ⟨none, none, none, some "not a number"⟩ subject body
      = SendOutcome.raisedValueError := rfl

/-- C10: the output of load_fees is always sorted in descending order
of the change_7d cell, rows with a missing cell ordered below every
number (pandas places NaN last); in particular every non-empty output
is sorted as the fee-leader table and top-5 digest rely on. -/
theorem C10_load_fees_sorted (d : Option (List RawFeeRow)) :
    List.Sorted feeDesc (load_fees d) := by
  unfold load_fees
  match d with
  | none => exact List.sorted_nil
  | some rows =>
    by_cases h : feeColsPresent rows
    · simpa [h] using List.sorted_insertionSort feeDesc rows
    · simp [h]

/-- C8: the narrative aggregator is a pure function of its three input
datasets, so two invocations on the same inputs yield identical output;
the embedding is stateless because the source function reads nothing
beyond its arguments. -/
theorem C8_detect_narratives_deterministic (fees dex yld : DSet) :
    detect_narratives fees dex yld = detect_narratives fees dex yld := rfl

-- Dictionary lemmas for the narrative aggregator.

theorem lookupSig_addSignal (m : List (String × List String)) (cat sig c : String) :
    lookupSig (addSignal m cat sig) c =
      if c = cat then some (addNew ((lookupSig m cat).getD []) sig)
      else lookupSig m c := by
  induction m with
  | nil =>
    by_cases hc : c = cat
    · subst hc
      simp [addSignal, lookupSig, addNew]
    · have hcc : ¬ cat = c := fun h => hc h.symm
      simp [addSignal, lookupSig, hc, hcc]
  | cons p rest ih =>
    obtain ⟨a, l⟩ := p
    by_cases hac : a = cat
    · subst hac
      by_cases hc : c = a
      · subst hc
        simp [addSignal, lookupSig]
      · have hcc : ¬ a = c := fun h => hc h.symm
        simp [addSignal, lookupSig, hc, hcc]
    · by_cases hc : c = cat
      · subst hc
        have hca : ¬ a = c := fun h => hac h
        simp [addSignal, lookupSig, hac, hca, ih]
      · by_cases hca : a = c
        · subst hca
          simp [addSignal, lookupSig, hac, hc]
        · simp [addSignal, lookupSig, hac, hca, hc, ih]

theorem mem_keysOf_iff (m : List (String × List String)) (c : String) :
    c ∈ keysOf m ↔ (lookupSig m c).isSome := by
  induction m with
  | nil => simp [keysOf, lookupSig]
  | cons p rest ih =>
    obtain ⟨a, l⟩ := p
    by_cases hca : a = c
    · subst hca
      simp [keysOf, lookupSig]
    · have hcc : ¬ c = a := fun h => hca h.symm
      simp only [keysOf, List.map_cons, List.mem_cons, lookupSig, if_neg hca]
      constructor
      · intro h
        rcases h with h | h
        · exact absurd h hcc
        · exact (ih.mp h)
      · intro h
        exact Or.inr (ih.mpr h)

theorem keysOf_addSignal (m : List (String × List String)) (cat sig : String) :
    keysOf (addSignal m cat sig) =
      if (lookupSig m cat).isSome then keysOf m else keysOf m ++ [cat] := by
  induction m with
  | nil => simp [addSignal, keysOf, lookupSig]
  | cons p rest ih =>
    obtain ⟨a, l⟩ := p
    by_cases hac : a = cat
    · subst hac
      simp [addSignal, keysOf, lookupSig]
    · simp only [addSignal, if_neg hac, keysOf, List.map_cons, lookupSig,
        if_neg (show ¬ a = cat from hac)]
      rw [show (List.map Prod.fst (addSignal rest cat sig))
          = keysOf (addSignal rest cat sig) from rfl, ih]
      by_cases hs : (lookupSig rest cat).isSome
      · simp [hs, keysOf]
      · simp [hs, keysOf]

theorem nodup_keysOf_addSignal {m : List (String × List String)} (cat sig : String)
    (h : (keysOf m).Nodup) : (keysOf (addSignal m cat sig)).Nodup := by
  rw [keysOf_addSignal]
  by_cases hs : (lookupSig m cat).isSome
  · simpa [hs] using h
  · have hnm : cat ∉ keysOf m := by
      rw [mem_keysOf_iff]
      simp [hs]
    simp [hs, List.nodup_append, h, hnm]

theorem lookupSig_addCats_not_mem (cats : List String) :
    ∀ (m : List (String × List String)) (sig c : String), c ∉ cats →
      lookupSig (addCats m cats sig) c = lookupSig m c := by
  induction cats with
  | nil =>
    intro m sig c _
    simp [addCats]
  | cons a t ih =>
    intro m sig c hc
    have hca : ¬ c = a := fun h => hc (h ▸ List.mem_cons_self a t)
    have hct : c ∉ t := fun h => hc (List.mem_cons_of_mem a h)
    have hstep : addCats m (a :: t) sig = addCats (addSignal m a sig) t sig := rfl
    rw [hstep, ih (addSignal m a sig) sig c hct, lookupSig_addSignal, if_neg hca]

theorem lookupSig_addCats_mem (cats : List String) :
    ∀ (m : List (String × List String)) (sig c : String), cats.Nodup → c ∈ cats →
      sig ∉ (lookupSig m c).getD [] →
      lookupSig (addCats m cats sig) c = some ((lookupSig m c).getD [] ++ [sig]) := by
  induction cats with
  | nil =>
    intro m sig c _ hc _
    exact absurd hc (List.not_mem_nil c)
  | cons a t ih =>
    intro m sig c hn hc hfresh
    rw [List.nodup_cons] at hn
    obtain ⟨hat, htn⟩ := hn
    have hstep : addCats m (a :: t) sig = addCats (addSignal m a sig) t sig := rfl
    rw [hstep]
    by_cases hca : c = a
    · subst hca
      have h1 : lookupSig (addSignal m c sig) c
          = some ((lookupSig m c).getD [] ++ [sig]) := by
        rw [lookupSig_addSignal, if_pos rfl, addNew, if_neg hfresh]
      rw [lookupSig_addCats_not_mem t (addSignal m c sig) sig c hat, h1]
    · have h1 : lookupSig (addSignal m a sig) c = lookupSig m c := by
        rw [lookupSig_addSignal, if_neg hca]
      have hct : c ∈ t := by
        rcases List.mem_cons.mp hc with h | h
        · exact absurd h hca
        · exact h
      rw [ih (addSignal m a sig) sig c htn hct (by rw [h1]; exact hfresh), h1]

theorem nodup_keysOf_addCats (cats : List String) :
    ∀ (m : List (String × List String)) (sig : String), (keysOf m).Nodup →
      (keysOf (addCats m cats sig)).Nodup := by
  induction cats with
  | nil =>
    intro m sig h
    simpa [addCats] using h
  | cons a t ih =>
    intro m sig h
    have hstep : addCats m (a :: t) sig = addCats (addSignal m a sig) t sig := rfl
    rw [hstep]
    exact ih (addSignal m a sig) sig (nodup_keysOf_addSignal a sig h)

theorem lookupSig_of_mem (m : List (String × List String)) (c : String) (l : List String)
    (hn : (keysOf m).Nodup) (hm : (c, l) ∈ m) : lookupSig m c = some l := by
  induction m with
  | nil => exact absurd hm (List.not_mem_nil _)
  | cons p rest ih =>
    obtain ⟨a, l'⟩ := p
    simp only [keysOf, List.map_cons, List.nodup_cons] at hn
    obtain ⟨hna, hnr⟩ := hn
    rcases List.mem_cons.mp hm with h | h
    · obtain ⟨h1, h2⟩ := Prod.mk.injEq .. ▸ h
      subst h1
      subst h2
      simp [lookupSig]
    · have hc : c ∈ keysOf rest := by
        have := List.mem_map_of_mem Prod.fst h
        simpa [keysOf] using this
      have hca : ¬ a = c := fun he => hna (he ▸ hc)
      simp only [lookupSig, if_neg hca]
      exact ih hnr h

theorem uniqueFirst_aux_mem (l : List String) :
    ∀ (acc : List String) (x : String),
      x ∈ l.foldl (fun acc a => if a ∈ acc then acc else acc ++ [a]) acc
        ↔ x ∈ acc ∨ x ∈ l := by
  induction l with
  | nil =>
    intro acc x
    simp
  | cons a t ih =>
    intro acc x
    rw [List.foldl_cons, ih]
    by_cases ha : a ∈ acc
    · simp only [if_pos ha, List.mem_cons]
      constructor
      · rintro (h | h)
        · exact Or.inl h
        · exact Or.inr (Or.inr h)
      · rintro (h | h | h)
        · exact Or.inl h
        · exact Or.inl (h ▸ ha)
        · exact Or.inr h
    · simp only [if_neg ha, List.mem_append, List.mem_singleton, List.mem_cons]
      tauto

theorem uniqueFirst_aux_nodup (l : List String) :
    ∀ acc : List String, acc.Nodup →
      (l.foldl (fun acc a => if a ∈ acc then acc else acc ++ [a]) acc).Nodup := by
  induction l with
  | nil =>
    intro acc h
    simpa using h
  | cons a t ih =>
    intro acc h
    rw [List.foldl_cons]
    by_cases ha : a ∈ acc
    · rw [if_pos ha]
      exact ih acc h
    · rw [if_neg ha]
      exact ih (acc ++ [a]) (by simp [List.nodup_append, h, ha])

theorem uniqueFirst_nodup (l : List String) : (uniqueFirst l).Nodup :=
  uniqueFirst_aux_nodup l [] List.nodup_nil

theorem mem_uniqueFirst (l : List String) (x : String) :
    x ∈ uniqueFirst l ↔ x ∈ l := by
  unfold uniqueFirst
  rw [uniqueFirst_aux_mem]
  simp

theorem observedCats_nodup (df : DSet) : (observedCats df).Nodup := by
  unfold observedCats
  by_cases h : df.isEmpty || !df.hasCat
  · simp [h]
  · simp only [h, if_false]
    exact uniqueFirst_nodup _

theorem narrativesDict_stage1 (fees : DSet) (c : String) :
    lookupSig (addCats [] (observedCats fees) "fees") c =
      if c ∈ observedCats fees then some ["fees"] else none := by
  by_cases cF : c ∈ observedCats fees
  · rw [if_pos cF]
    have h := lookupSig_addCats_mem (observedCats fees) [] "fees" c
      (observedCats_nodup fees) cF (by simp [lookupSig])
    simpa [lookupSig] using h
  · rw [if_neg cF, lookupSig_addCats_not_mem (observedCats fees) [] "fees" c cF]
    rfl

theorem narrativesDict_stage2 (fees dex : DSet) (c : String) :
    lookupSig (addCats (addCats [] (observedCats fees) "fees")
        (observedCats dex) "users") c =
      if c ∈ observedCats dex then
        some ((if c ∈ observedCats fees then ["fees"] else []) ++ ["users"])
      else if c ∈ observedCats fees then some ["fees"] else none := by
  by_cases cD : c ∈ observedCats dex
  · rw [if_pos cD]
    have hfresh : "users" ∉
        (lookupSig (addCats [] (observedCats fees) "fees") c).getD [] := by
      rw [narrativesDict_stage1]
      by_cases cF : c ∈ observedCats fees <;> simp [cF]
    rw [lookupSig_addCats_mem (observedCats dex) _ "users" c
      (observedCats_nodup dex) cD hfresh, narrativesDict_stage1]
    by_cases cF : c ∈ observedCats fees <;> simp [cF]
  · rw [if_neg cD, lookupSig_addCats_not_mem (observedCats dex) _ "users" c cD,
      narrativesDict_stage1]

theorem narrativesDict_lookup (fees dex yld : DSet) (c : String) :
    lookupSig (narrativesDict fees dex yld) c =
      if c ∈ observedCats fees ∨ c ∈ observedCats dex ∨ c ∈ observedCats yld
      then some (specSignals fees dex yld c) else none := by
  unfold narrativesDict
  by_cases cY : c ∈ observedCats yld
  · have hfresh : "liquidity" ∉
        (lookupSig (addCats (addCats [] (observedCats fees) "fees")
          (observedCats dex) "users") c).getD [] := by
      rw [narrativesDict_stage2]
      by_cases cD : c ∈ observedCats dex <;> by_cases cF : c ∈ observedCats fees <;>
        simp [cD, cF]
    rw [lookupSig_addCats_mem (observedCats yld) _ "liquidity" c
      (observedCats_nodup yld) cY hfresh, narrativesDict_stage2]
    by_cases cD : c ∈ observedCats dex <;> by_cases cF : c ∈ observedCats fees <;>
      simp [cD, cF, cY, specSignals]
  · rw [lookupSig_addCats_not_mem (observedCats yld) _ "liquidity" c cY,
      narrativesDict_stage2]
    by_cases cD : c ∈ observedCats dex <;> by_cases cF : c ∈ observedCats fees <;>
      simp [cD, cF, cY, specSignals]

theorem narrativesDict_keys_nodup (fees dex yld : DSet) :
    (keysOf (narrativesDict fees dex yld)).Nodup := by
  unfold narrativesDict
  apply nodup_keysOf_addCats
  apply nodup_keysOf_addCats
  apply nodup_keysOf_addCats
  simp [keysOf]

theorem specSignals_length (fees dex yld : DSet) (c : String) :
    (specSignals fees dex yld c).length = specStrength fees dex yld c := by
  unfold specSignals specStrength
  by_cases h1 : c ∈ observedCats fees <;> by_cases h2 : c ∈ observedCats dex <;>
    by_cases h3 : c ∈ observedCats yld <;> simp [h1, h2, h3]

theorem one_le_specSignals_length {fees dex yld : DSet} {c : String}
    (h : c ∈ observedCats fees ∨ c ∈ observedCats dex ∨ c ∈ observedCats yld) :
    1 ≤ (specSignals fees dex yld c).length := by
  unfold specSignals
  rcases h with h | h | h <;> simp [h, List.length_append] <;> omega

theorem specSignals_length_le (fees dex yld : DSet) (c : String) :
    (specSignals fees dex yld c).length ≤ 3 := by
  unfold specSignals
  by_cases h1 : c ∈ observedCats fees <;> by_cases h2 : c ∈ observedCats dex <;>
    by_cases h3 : c ∈ observedCats yld <;> simp [h1, h2, h3]

theorem detect_narratives_ok {fees dex yld : DSet} {rows : List NarrativeRow}
    (h : detect_narratives fees dex yld = Except.ok rows) :
    rows = List.insertionSort strengthDesc
      ((narrativesDict fees dex yld).map (fun p => mkNarrativeRow p.1 p.2)) := by
  simp only [detect_narratives] at h
  split_ifs at h with he
  exact (Except.ok.inj h).symm

/-- C4: whenever the narrative aggregator returns (at least one
category observed; the zero-category case raises, see C1), its output
has exactly one row per category observed in a non-empty,
category-bearing input dataset (the narratives are duplicate-free and
range over exactly the observed categories); each row carries strength
equal to the number of distinct signal sources among fees, users,
liquidity whose dataset mentions the category, a strength between 1
and 3, the sorted comma-separated join of those source names, and the
status determined by strength; and the rows are ordered by descending
strength. -/
theorem C4_detect_narratives_spec (fees dex yld : DSet) (rows : List NarrativeRow)
    (h : detect_narratives fees dex yld = Except.ok rows) :
    (rows.map NarrativeRow.narrative).Nodup
      ∧ (∀ cat : String, cat ∈ rows.map NarrativeRow.narrative ↔
          (cat ∈ observedCats fees ∨ cat ∈ observedCats dex ∨ cat ∈ observedCats yld))
      ∧ (∀ r ∈ rows,
          r.strength = specStrength fees dex yld r.narrative
          ∧ 1 ≤ r.strength ∧ r.strength ≤ 3
          ∧ r.signalsActive = String.intercalate ", "
              (List.insertionSort (fun a b => a ≤ b)
                (specSignals fees dex yld r.narrative))
          ∧ r.status = (if 3 ≤ r.strength then "🔥 Accelerating"
              else if r.strength = 2 then "🟢 Emerging" else "🧊 Mature"))
      ∧ List.Sorted strengthDesc rows := by
  have hrows := detect_narratives_ok h
  have hperm : List.Perm rows
      ((narrativesDict fees dex yld).map (fun p => mkNarrativeRow p.1 p.2)) := by
    rw [hrows]
    exact List.perm_insertionSort _ _
  have hmapnarr : (((narrativesDict fees dex yld).map
        (fun p => mkNarrativeRow p.1 p.2)).map NarrativeRow.narrative)
      = keysOf (narrativesDict fees dex yld) := by
    rw [List.map_map]
    rfl
  refine ⟨?_, ?_, ?_, ?_⟩
  · rw [(hperm.map NarrativeRow.narrative).nodup_iff, hmapnarr]
    exact narrativesDict_keys_nodup fees dex yld
  · intro cat
    rw [(hperm.map NarrativeRow.narrative).mem_iff, hmapnarr, mem_keysOf_iff,
      narrativesDict_lookup]
    by_cases hobs : cat ∈ observedCats fees ∨ cat ∈ observedCats dex
        ∨ cat ∈ observedCats yld <;> simp [hobs]
  · intro r hr
    have hr0 : r ∈ (narrativesDict fees dex yld).map
        (fun p => mkNarrativeRow p.1 p.2) := hperm.mem_iff.mp hr
    obtain ⟨⟨c0, l0⟩, hp, hre⟩ := List.mem_map.mp hr0
    have hlk : lookupSig (narrativesDict fees dex yld) c0 = some l0 :=
      lookupSig_of_mem _ c0 l0 (narrativesDict_keys_nodup fees dex yld) hp
    rw [narrativesDict_lookup] at hlk
    by_cases hobs : c0 ∈ observedCats fees ∨ c0 ∈ observedCats dex
        ∨ c0 ∈ observedCats yld
    · rw [if_pos hobs] at hlk
      have hl0 : l0 = specSignals fees dex yld c0 := (Option.some.inj hlk).symm
      subst hre
      subst hl0
      refine ⟨?_, ?_, ?_, ?_, ?_⟩
      · simp [mkNarrativeRow, specSignals_length]
      · simpa [mkNarrativeRow] using one_le_specSignals_length hobs
      · simpa [mkNarrativeRow] using specSignals_length_le fees dex yld c0
      · simp [mkNarrativeRow]
      · simp [mkNarrativeRow, narrativeStatus]
    · rw [if_neg hobs] at hlk
      exact absurd hlk (by simp)
  · rw [hrows]
    exact List.sorted_insertionSort _ _

/-- C4 witness: the per-row properties of the aggregator evaluated at
the spec scenario where the fees dataset carries category Dexes and the
dex and yield datasets are empty. -/
theorem C4_detect_narratives_spec_witness :
    ((⟨"Dexes", "fees", 1, "🧊 Mature"⟩ : NarrativeRow).strength
        = specStrength ⟨false, true, [some "Dexes"]⟩ ⟨true, false, []⟩ ⟨true, false, []⟩
            (⟨"Dexes", "fees", 1, "🧊 Mature"⟩ : NarrativeRow).narrative)
      ∧ 1 ≤ (⟨"Dexes", "fees", 1, "🧊 Mature"⟩ : NarrativeRow).strength
      ∧ (⟨"Dexes", "fees", 1, "🧊 Mature"⟩ : NarrativeRow).strength ≤ 3
      ∧ (⟨"Dexes", "fees", 1, "🧊 Mature"⟩ : NarrativeRow).signalsActive
          = String.intercalate ", " (List.insertionSort (fun a b => a ≤ b)
              (specSignals ⟨false, true, [some "Dexes"]⟩ ⟨true, false, []⟩
                ⟨true, false, []⟩
                (⟨"Dexes", "fees", 1, "🧊 Mature"⟩ : NarrativeRow).narrative))
      ∧ (⟨"Dexes", "fees", 1, "🧊 Mature"⟩ : NarrativeRow).status
          = (if 3 ≤ (⟨"Dexes", "fees", 1, "🧊 Mature"⟩ : NarrativeRow).strength
              then "🔥 Accelerating"
              else if (⟨"Dexes", "fees", 1, "🧊 Mature"⟩ : NarrativeRow).strength = 2
              then "🟢 Emerging" else "🧊 Mature") :=
  (C4_detect_narratives_spec ⟨false, true, [some "Dexes"]⟩ ⟨true, false, []⟩
      ⟨true, false, []⟩ [⟨"Dexes", "fees", 1, "🧊 Mature"⟩] rfl).2.2.1
    ⟨"Dexes", "fees", 1, "🧊 Mature"⟩ (List.mem_singleton.mpr rfl)
